import Mathlib

/-!
Verification of the tagging add-on (`tagging/fields.py`, `tagging/views.py`).

The tag field is a descriptor that stores a space-separated tag string on
model instances while the real associations live in an external tag store
(`Tag` / `TaggedItem` managers, outside this repository's `src/`).  The
external store, the tag-string parser/serializer and the host ORM's
construction protocol are modelled from the spec; everything else is a
direct embedding of the Python source.
-/

namespace Tagging

/-- A model class of the host language: an identity and the ordered list of
its base classes, mirroring Python's `SomeClass.__bases__`.  Two classes are
the same exactly when they are structurally the same tree. -/
inductive PyClass : Type where
  | mk (id : Nat) (bases : List PyClass) : PyClass

/-- The `__bases__` list of a class. -/
def PyClass.bases : PyClass → List PyClass
  | .mk _ bs => bs

mutual
/-- Structural equality on classes, modelling Python's `==` (identity) on
class objects. -/
def PyClass.beq : PyClass → PyClass → Bool
  | .mk i bs, .mk j cs => i == j && PyClass.beqList bs cs
/-- Structural equality on lists of classes. -/
def PyClass.beqList : List PyClass → List PyClass → Bool
  | [], [] => true
  | a :: as, b :: bs => PyClass.beq a b && PyClass.beqList as bs
  | _, _ => false
end

theorem PyClass.beq_iff_eq_aux (n : Nat) :
    (∀ a b : PyClass, sizeOf a ≤ n → ((PyClass.beq a b = true) ↔ a = b)) ∧
    (∀ as bs : List PyClass, sizeOf as ≤ n → ((PyClass.beqList as bs = true) ↔ as = bs)) := by
  induction n with
  | zero =>
    constructor
    · intro a b h; cases a; simp_all
    · intro as bs h; cases as; · simp_all
      · simp_all
  | succ n ih =>
    constructor
    · intro a b h
      cases a with
      | mk i bs =>
        cases b with
        | mk j cs =>
          have hbs : sizeOf bs ≤ n := by simp at h; omega
          simp [PyClass.beq, ih.2 bs cs hbs]
    · intro as bs h
      cases as with
      | nil => cases bs <;> simp [PyClass.beqList]
      | cons a as =>
        cases bs with
        | nil => simp [PyClass.beqList]
        | cons b bs =>
          have ha : sizeOf a ≤ n := by
            simp at h; cases a with | mk i cs => simp_all; omega
          have has : sizeOf as ≤ n := by
            simp at h; cases a with | mk i cs => simp_all; omega
          simp [PyClass.beqList, ih.1 a b ha, ih.2 as bs has]

theorem PyClass.beq_iff_eq (a b : PyClass) : (PyClass.beq a b = true) ↔ a = b :=
  (PyClass.beq_iff_eq_aux (sizeOf a)).1 a b (Nat.le_refl _)

instance : DecidableEq PyClass :=
  fun a b => decidable_of_iff _ (PyClass.beq_iff_eq a b)

theorem PyClass.beq_refl (a : PyClass) : PyClass.beq a a = true :=
  (PyClass.beq_iff_eq a a).mpr rfl

mutual
/-- The spec's ancestry test, following its words: a class descends from
`cls` when it is `cls` itself or some class in its `__bases__` (through any
base-class path) descends from `cls`. -/
def descends (cls : PyClass) : PyClass → Bool
  | .mk i bs => PyClass.beq (.mk i bs) cls || descendsList cls bs
/-- Any-path ancestry over a list of base classes. -/
def descendsList (cls : PyClass) : List PyClass → Bool
  | [] => false
  | b :: bs => descends cls b || descendsList cls bs
end

mutual
/-- Ancestry restricted to the chain of first base classes: a class passes
when it is `cls` itself or its first base passes.  This is the test the
source's `_is_sender` actually computes, because the `for` loop over
`__bases__` returns from its first iteration on both branches. -/
def leftmostDescends (cls : PyClass) : PyClass → Bool
  | .mk i bs => PyClass.beq (.mk i bs) cls || leftmostList cls bs
/-- Leftmost-chain ancestry continued into a bases list: only the first base
is examined. -/
def leftmostList (cls : PyClass) : List PyClass → Bool
  | [] => false
  | b :: _ => leftmostDescends cls b
end

/-- A tag name. -/
abbrev TagName := String

/-- One persisted association: (content type, object id, tag name), the
`TaggedItem` triple owned by the external tag store. -/
structure TaggedItem where
  ctype : Nat
  objectId : Nat
  tag : TagName
deriving DecidableEq, Repr

/-- The persisted association table of the external tag store. -/
abbrev TagStore := List TaggedItem

/-- Lower-casing of a string, character by character, modelling Python's
`str.lower()`. -/
def str_lower (s : String) : String := ⟨s.data.map Char.toLower⟩

/-- Split a character list at every space; pieces may be empty. -/
def splitOnSpace : List Char → List (List Char)
  | [] => [[]]
  | c :: rest =>
    match splitOnSpace rest with
    | [] => [[]]
    | w :: ws => if c = ' ' then [] :: w :: ws else (c :: w) :: ws

/-- Modelled from the spec: `parse_tag_input` from `tagging.utils` (not under
`src/`).  A usage string is a space-separated serialization of a set of tag
names, so parsing splits on spaces, drops empty pieces and removes
duplicates; a Python `None` input carries no tags. -/
def parse_tag_input : Option String → List TagName
  | none => []
  | some s => (((splitOnSpace s.data).map (fun w => String.mk w)).filter
      (fun w => w ≠ "")).dedup

/-- Modelled from the spec: `edit_string_for_tags` from `tagging.utils` (not
under `src/`), the inverse serialization: tag names joined by spaces. -/
def edit_string_for_tags (tags : List TagName) : String :=
  String.intercalate " " tags

/-- The persisted association tags of one object under one content type, as
recorded in the external store. -/
def get_for_object (store : TagStore) (ctype oid : Nat) : List TagName :=
  (store.filter (fun it => it.ctype == ctype && it.objectId == oid)).map (·.tag)

/-- A host model instance: its primary key (`none` while unsaved) and the
field's per-instance cache attribute.  The outer `Option` is attribute
presence (`getattr` default), the inner one lets the cached value itself be
Python's `None`. -/
structure Instance where
  pk : Option Nat := none
  tagCache : Option (Option String) := none
deriving DecidableEq, Repr

/-- Modelled from the spec: `Tag.objects.update_tags` from `tagging.models`
(not under `src/`), the update-an-object's-tag-set operation: it replaces the
persisted association set of the object for the given content type with
exactly the parsed tag names of the given string. -/
def update_tags (store : TagStore) (inst : Instance) (tag_names : Option String)
    (ctype : Nat) : TagStore :=
  match inst.pk with
  | none => store
  | some oid =>
    store.filter (fun it => !(it.ctype == ctype && it.objectId == oid)) ++
      (parse_tag_input tag_names).map (fun t => ⟨ctype, oid, t⟩)

/-- Modelled from the spec: `Tag.objects.usage_for_model` (not under `src/`),
the list-tags-for-model operation: every tag used on at least one instance of
the model. -/
def usage_for_model (store : TagStore) (ctype : Nat) : List TagName :=
  ((store.filter (fun it => it.ctype == ctype)).map (·.tag)).dedup

/-- The runtime state a `TagField` object carries: the class that declared
the field (`self.cls`, set by `contribute_to_class`), its content type id
(what `_get_ctype` resolves), and the two memo tuples of `_is_sender`. -/
structure FieldState where
  cls : PyClass
  ctype : Nat
  senders : List PyClass := []
  not_senders : List PyClass := []

namespace TagField

/-- `TagField._get_instance_tag_cache`: read the cache attribute, with
`getattr`'s `None` default when the attribute is absent. -/
def _get_instance_tag_cache (i : Instance) : Option String :=
  i.tagCache.join

/-- `TagField._set_instance_tag_cache`: store a value (possibly Python's
`None`) in the cache attribute. -/
def _set_instance_tag_cache (i : Instance) (tags : Option String) : Instance :=
  { i with tagCache := some tags }

/-- `TagField.__get__`: on the class (no instance) the usage string of every
tag of the model; on an instance, that instance's cache. -/
def __get__ (store : TagStore) (ctype : Nat) (inst : Option Instance) :
    Option String :=
  match inst with
  | none => some (edit_string_for_tags (usage_for_model store ctype))
  | some i => _get_instance_tag_cache i

/-- `TagField.__set__`: rejects a class-level write with an attribute error;
otherwise lower-cases the value when `FORCE_LOWERCASE_TAGS` is on and the
value is not `None`, and stores it in the per-instance cache. -/
def __set__ (force_lowercase : Bool) (inst : Option Instance)
    (value : Option String) : Except String Instance :=
  match inst with
  | none => .error "tags can only be set on instances."
  | some i =>
    let value := if force_lowercase && value.isSome
      then value.map str_lower else value
    .ok (_set_instance_tag_cache i value)

/-- `TagField._is_sender`: did the sender inherit from `self.cls`?  Checks
the declaring class and both memo tuples, then walks into the bases; the
source's `for` loop returns from its first iteration on both branches, so
only the first base is ever examined, and when the bases list is empty the
original sender is memoized as a non-sender. -/
def _is_sender (st : FieldState) : PyClass → Option PyClass → Bool × FieldState
  | .mk i bs, orig =>
    if PyClass.beq (.mk i bs) st.cls ||
        st.senders.any (fun c => PyClass.beq (.mk i bs) c) then
      (true, st)
    else if st.not_senders.any (fun c => PyClass.beq (.mk i bs) c) then
      (false, st)
    else
      match bs with
      | [] =>
        (false, { st with not_senders := st.not_senders ++ [orig.getD (.mk i bs)] })
      | base :: _ =>
        if PyClass.beq base st.cls then
          (true, { st with senders := st.senders ++ [.mk i bs] })
        else
          _is_sender st base (some (orig.getD (.mk i bs)))

/-- `TagField._save`, the `post_save` handler (connected for every sender):
when `_is_sender` accepts the sender, push the instance's cached string to
the external store for the declaring model's content type. -/
def _save (st : FieldState) (sender : PyClass) (inst : Instance)
    (store : TagStore) : TagStore × FieldState :=
  match _is_sender st sender none with
  | (true, st') => (update_tags store inst (_get_instance_tag_cache inst) st.ctype, st')
  | (false, st') => (store, st')

/-- `TagField._update_instance_tag_cache`: refresh the cache from the
persisted associations; for an unsaved object (no primary key) leave the
default value alone. -/
def _update_instance_tag_cache (store : TagStore) (ctype : Nat)
    (i : Instance) : Instance :=
  match i.pk with
  | none => i
  | some oid =>
    _set_instance_tag_cache i (some (edit_string_for_tags (get_for_object store ctype oid)))

/-- `TagField._update`, the `post_init` handler: refresh the instance's tag
cache from the store. -/
def _update (store : TagStore) (ctype : Nat) (i : Instance) : Instance :=
  _update_instance_tag_cache store ctype i

/-- `TagField.__delete__`, the `pre_delete` handler: clear all of the
object's tags by updating the store with the empty string. -/
def __delete__ (st : FieldState) (inst : Instance) (store : TagStore) : TagStore :=
  update_tags store inst (some "") st.ctype

end TagField

/-- Modelled from the spec: instance construction by the host ORM (outside
this repository).  The field declares `default=''`, the ORM initialises each
field attribute to its default through the descriptor's setter, and then the
`post_init` signal runs the field's `_update` handler, which refreshes the
cache from the store only for an already-persisted instance. -/
def construct (force_lowercase : Bool) (store : TagStore) (ctype : Nat)
    (pk : Option Nat) : Instance :=
  let i0 : Instance := { pk := pk, tagCache := none }
  let i1 := match TagField.__set__ force_lowercase (some i0) (some "") with
    | .ok i => i
    | .error _ => i0
  TagField._update store ctype i1

/-- Modelled from the spec: `get_tag` from `tagging.utils` (not under
`src/`), the resolve-tag-by-name operation: the stored tag of that name, or
`none` when no such tag exists. -/
def get_tag (tags : List TagName) (name : TagName) : Option TagName :=
  if tags.contains name then some name else none

/-- Modelled from the spec: `TaggedItem.objects.get_by_model` (not under
`src/`), the list-items-by-model-and-tag operation: the objects of the model
bearing the tag. -/
def get_by_model (store : TagStore) (ctype : Nat) (tag : TagName) : List Nat :=
  (store.filter (fun it => it.ctype == ctype && it.tag == tag)).map (·.objectId)

/-- Modelled from the spec: `Tag.objects.related_for_model` (not under
`src/`), the compute-related-tags operation: the other tags borne by objects
of the model that bear the given tag. -/
def related_for_model (store : TagStore) (ctype : Nat) (tag : TagName) :
    List TagName :=
  (((store.filter (fun it =>
        it.ctype == ctype && (get_by_model store ctype tag).contains it.objectId)).map
      (·.tag)).filter (fun t => t != tag)).dedup

/-- A failure a view surfaces to its caller. -/
inductive ViewError where
  | attributeError (msg : String)
  | http404 (msg : String)
deriving DecidableEq, Repr

/-- What `tagged_object_list` hands to the generic `object_list` renderer:
the resolved tag, the filtered queryset and the optional related tags of the
extra context. -/
structure ObjectListResponse where
  tag : TagName
  objects : List Nat
  related_tags : Option (List TagName)
deriving DecidableEq, Repr

/-- The keyword arguments `tagged_object_list` may pop its required
arguments from. -/
structure Kwargs where
  queryset_or_model : Option Nat := none
  tag : Option TagName := none
deriving DecidableEq, Repr

/-- `tagged_object_list` from `tagging/views.py`: take the queryset-or-model
and the tag from the positional or the keyword arguments (attribute error
when absent from both), resolve the tag (404 when unknown), filter the model
to the objects bearing it, optionally add related tags, and delegate to the
paginated renderer. -/
def tagged_object_list (store : TagStore) (tags : List TagName)
    (queryset_or_model : Option Nat) (tag : Option TagName)
    (related_tags : Bool) (kwargs : Kwargs) :
    Except ViewError ObjectListResponse :=
  match (match queryset_or_model with
         | some q => Except.ok q
         | none =>
           match kwargs.queryset_or_model with
           | some q => Except.ok q
           | none => Except.error (ViewError.attributeError
               "tagged_object_list must be called with a queryset or a model.")) with
  | .error e => .error e
  | .ok qm =>
    match (match tag with
           | some t => Except.ok t
           | none =>
             match kwargs.tag with
             | some t => Except.ok t
             | none => Except.error (ViewError.attributeError
                 "tagged_object_list must be called with a tag.")) with
    | .error e => .error e
    | .ok t =>
      match get_tag tags t with
      | none => .error (.http404 ("No Tag found matching " ++ t ++ "."))
      | some tag_instance =>
        .ok { tag := tag_instance
              objects := get_by_model store qm tag_instance
              related_tags := if related_tags
                then some (related_for_model store qm tag_instance) else none }

/-- One entry of the `tag_info` list `tags_for_object` renders: a tag, its
annotated items count, and the bounded sample of tagged objects. -/
structure TagInfo where
  tag : TagName
  count : Nat
  items : List Nat
deriving DecidableEq, Repr

/-- Insert an element into a list in front of the first element it relates
to under `le`. -/
def insertSorted (le : α → α → Bool) (a : α) : List α → List α
  | [] => [a]
  | b :: bs => if le a b then a :: b :: bs else b :: insertSorted le a bs

/-- Insertion sort by a boolean relation, modelling the ORM's `order_by`. -/
def sortBy (le : α → α → Bool) : List α → List α
  | [] => []
  | a :: as => insertSorted le a (sortBy le as)

/-- `tags_for_object` from `tagging/views.py`: the distinct tags used on the
model, each annotated with its items count under that model's content type,
ordered by descending count; each entry carries the first 5 tagged objects
under the caller-supplied ordering. -/
def tags_for_object (store : TagStore) (ctype : Nat)
    (order_by : List Nat → List Nat) : List TagInfo :=
  let ti := ((store.filter (fun it => it.ctype == ctype)).map (·.tag)).dedup
  let annotated := ti.map (fun t =>
    (t, (store.filter (fun it => it.ctype == ctype && it.tag == t)).length))
  (sortBy (fun a b => b.2 ≤ a.2) annotated).map (fun p =>
    { tag := p.1
      count := p.2
      items := (order_by (get_by_model store ctype p.1)).take 5 })

/-! ## General lemmas about the embedded operations -/

/-- After `update_tags`, the persisted association tags of the object are
exactly the parsed tag names of the given string. -/
theorem get_for_object_update_tags (store : TagStore) (inst : Instance)
    (v : Option String) (ctype oid : Nat) (hpk : inst.pk = some oid) :
    get_for_object (update_tags store inst v ctype) ctype oid = parse_tag_input v := by
  unfold update_tags get_for_object
  rw [hpk]
  rw [List.filter_append, List.map_append]
  have h1 : (store.filter (fun it => !(it.ctype == ctype && it.objectId == oid))).filter
      (fun it => it.ctype == ctype && it.objectId == oid) = [] := by
    rw [List.filter_filter]
    apply List.filter_eq_nil_iff.mpr
    intro a _
    cases h : (a.ctype == ctype && a.objectId == oid) <;> simp [h]
  have h2 : ((parse_tag_input v).map (fun t => (⟨ctype, oid, t⟩ : TaggedItem))).filter
      (fun it => it.ctype == ctype && it.objectId == oid)
      = (parse_tag_input v).map (fun t => (⟨ctype, oid, t⟩ : TaggedItem)) := by
    apply List.filter_eq_self.mpr
    intro a ha
    rcases List.mem_map.mp ha with ⟨t, _, rfl⟩
    simp
  have h3 : ((fun x : TaggedItem => x.tag) ∘ fun t : TagName => (⟨ctype, oid, t⟩ : TaggedItem)) = id := rfl
  rw [h1, h2, List.map_map, h3, List.map_id]
  simp

/-! ## C2, C6, C10: the descriptor's setter and getter -/

/-- C2: setting the tag field on an instance and reading it back on that
instance before any save returns the same string, except that the stored and
returned string is the lower-cased value when the force-lowercase-tags
setting is enabled. -/
theorem C2_set_then_get (force_lowercase : Bool) (i : Instance) (s : String)
    (store : TagStore) (ctype : Nat) :
    (TagField.__set__ force_lowercase (some i) (some s)).map
        (fun i' => TagField.__get__ store ctype (some i'))
      = .ok (some (if force_lowercase then str_lower s else s)) := by
  cases force_lowercase <;>
    simp [TagField.__set__, TagField.__get__, TagField._set_instance_tag_cache,
      TagField._get_instance_tag_cache, Except.map]

/-- C6: writing the tag field with no instance (a class-level write) fails
with an attribute error; the setter returns no updated instance, so no
per-instance tag cache is modified. -/
theorem C6_class_level_set_error (force_lowercase : Bool) (value : Option String) :
    TagField.__set__ force_lowercase none value
      = .error "tags can only be set on instances." := rfl

/-- C10: with force-lowercase-tags enabled, setting the field to `None`
skips the lowercasing step, stores `None` in the per-instance cache without
error, and reading the field back returns `None`. -/
theorem C10_none_value_skips_lowercase (i : Instance) (store : TagStore) (ctype : Nat) :
    (TagField.__set__ true (some i) none).map
        (fun i' => TagField.__get__ store ctype (some i'))
      = .ok none := by
  simp [TagField.__set__, TagField.__get__, TagField._set_instance_tag_cache,
    TagField._get_instance_tag_cache, Except.map]

/-! ## C4: the cache after instance construction -/

/-- C4: on instance construction the per-instance tag cache is refreshed
from the persisted associations when the instance has a primary key, and for
a new, not-yet-persisted instance it is left at the default empty value, so
reading the field on a freshly constructed unsaved instance returns the
empty string. -/
theorem C4_construction_cache (force_lowercase : Bool) (store : TagStore) (ctype : Nat) :
    (∀ oid : Nat,
        TagField.__get__ store ctype (some (construct force_lowercase store ctype (some oid)))
          = some (edit_string_for_tags (get_for_object store ctype oid))) ∧
    TagField.__get__ store ctype (some (construct force_lowercase store ctype none))
      = some "" := by
  constructor
  · intro oid
    cases force_lowercase <;>
      simp [construct, TagField.__set__, TagField.__get__, TagField._update,
        TagField._update_instance_tag_cache, TagField._set_instance_tag_cache,
        TagField._get_instance_tag_cache]
  · cases force_lowercase <;>
      simp [construct, TagField.__set__, TagField.__get__, TagField._update,
        TagField._update_instance_tag_cache, TagField._set_instance_tag_cache,
        TagField._get_instance_tag_cache, str_lower]

/-! ## C7: deletion clears the associations -/

/-- C7: the `pre_delete` handler updates the instance's tag set to the empty
string for the declaring model's content type, so after deletion no tag
association remains for that instance. -/
theorem C7_delete_clears (st : FieldState) (inst : Instance) (store : TagStore)
    (oid : Nat) (hpk : inst.pk = some oid) :
    get_for_object (TagField.__delete__ st inst store) st.ctype oid = [] := by
  unfold TagField.__delete__
  rw [get_for_object_update_tags store inst (some "") st.ctype oid hpk]
  rfl

/-- Witness for C7 at a concrete persisted instance that held one tag. -/
theorem C7_witness :
    get_for_object
        (TagField.__delete__ ⟨PyClass.mk 0 [], 4, [], []⟩ ⟨some 1, some (some "x")⟩
          [⟨4, 1, "x"⟩]) 4 1 = [] :=
  C7_delete_clears ⟨PyClass.mk 0 [], 4, [], []⟩ ⟨some 1, some (some "x")⟩
    [⟨4, 1, "x"⟩] 1 rfl

/-! ## The `_is_sender` ancestry walk -/

/-- Every class passes its own leftmost-chain ancestry test. -/
theorem leftmost_self (cls : PyClass) : leftmostDescends cls cls = true := by
  cases cls with
  | mk i bs => simp [leftmostDescends, PyClass.beq_refl]

/-- One-step unfolding of the leftmost-chain ancestry test. -/
theorem leftmost_mk (cls : PyClass) (i : Nat) (bs : List PyClass) :
    leftmostDescends cls (.mk i bs)
      = (PyClass.beq (.mk i bs) cls || leftmostList cls bs) := by
  simp [leftmostDescends]

/-- Soundness of the memo tuples: every cached sender passes the
leftmost-chain ancestry test of the declaring class and every cached
non-sender fails it. -/
def cacheSound (st : FieldState) : Prop :=
  (∀ c ∈ st.senders, leftmostDescends st.cls c = true) ∧
  (∀ c ∈ st.not_senders, leftmostDescends st.cls c = false)

/-- The crux of `_is_sender`: on sound memo state it computes exactly the
leftmost-chain ancestry test, preserves soundness of the memo tuples, and
leaves the declaring class and content type untouched.  The `orig`
hypothesis records that the original sender of a recursive walk has the same
leftmost-chain answer as the class currently examined. -/
theorem is_sender_spec : ∀ (n : Nat) (sender : PyClass), sizeOf sender ≤ n →
    ∀ (orig : Option PyClass) (st : FieldState), cacheSound st →
      (∀ o, orig = some o →
        leftmostDescends st.cls o = leftmostDescends st.cls sender) →
      (TagField._is_sender st sender orig).1 = leftmostDescends st.cls sender ∧
      cacheSound (TagField._is_sender st sender orig).2 ∧
      (TagField._is_sender st sender orig).2.cls = st.cls ∧
      (TagField._is_sender st sender orig).2.ctype = st.ctype := by
  intro n
  induction n with
  | zero =>
    intro sender h
    cases sender with
    | mk i bs => simp at h
  | succ n ih =>
    intro sender hsz orig st hs ho
    cases sender with
    | mk i bs =>
      by_cases hc1 : (PyClass.beq (.mk i bs) st.cls ||
          st.senders.any (fun c => PyClass.beq (.mk i bs) c)) = true
      · have hres : TagField._is_sender st (.mk i bs) orig = (true, st) := by
          unfold TagField._is_sender
          simp [hc1]
        rw [hres]
        refine ⟨?_, hs, rfl, rfl⟩
        rcases Bool.or_eq_true_iff.mp hc1 with h | h
        · have heq : (PyClass.mk i bs) = st.cls := (PyClass.beq_iff_eq _ _).mp h
          rw [heq, leftmost_self]
        · rcases List.any_eq_true.mp h with ⟨c, hcmem, hbeq⟩
          have heq : (PyClass.mk i bs) = c := (PyClass.beq_iff_eq _ _).mp hbeq
          rw [heq]
          exact (hs.1 c hcmem).symm
      · rw [Bool.not_eq_true] at hc1
        have hbeqcls : PyClass.beq (.mk i bs) st.cls = false := by
          cases h : PyClass.beq (.mk i bs) st.cls
          · rfl
          · rw [h] at hc1; simp at hc1
        by_cases hc2 : (st.not_senders.any (fun c => PyClass.beq (.mk i bs) c)) = true
        · have hres : TagField._is_sender st (.mk i bs) orig = (false, st) := by
            unfold TagField._is_sender
            simp [hc1, hc2]
          rw [hres]
          refine ⟨?_, hs, rfl, rfl⟩
          rcases List.any_eq_true.mp hc2 with ⟨c, hcmem, hbeq⟩
          have heq : (PyClass.mk i bs) = c := (PyClass.beq_iff_eq _ _).mp hbeq
          rw [heq]
          exact (hs.2 c hcmem).symm
        · rw [Bool.not_eq_true] at hc2
          cases bs with
          | nil =>
            have hres : TagField._is_sender st (.mk i []) orig
                = (false, { st with
                    not_senders := st.not_senders ++ [orig.getD (.mk i [])] }) := by
              unfold TagField._is_sender
              simp [hc1, hc2]
            have hlm : leftmostDescends st.cls (.mk i []) = false := by
              simp [leftmost_mk, hbeqcls, leftmostList]
            rw [hres]
            refine ⟨hlm.symm, ⟨hs.1, ?_⟩, rfl, rfl⟩
            intro c hc
            rcases List.mem_append.mp hc with h | h
            · exact hs.2 c h
            · have heq : c = orig.getD (.mk i []) := by simpa using h
              subst heq
              cases horig : orig with
              | none => simpa using hlm
              | some o => simpa using (ho o horig).trans hlm
          | cons base rest =>
            by_cases hb : PyClass.beq base st.cls = true
            · have hres : TagField._is_sender st (.mk i (base :: rest)) orig
                  = (true, { st with senders := st.senders ++ [.mk i (base :: rest)] }) := by
                unfold TagField._is_sender
                simp [hc1, hc2, hb]
              have hbase : base = st.cls := (PyClass.beq_iff_eq _ _).mp hb
              have hlm : leftmostDescends st.cls (.mk i (base :: rest)) = true := by
                simp [leftmost_mk, leftmostList, hbase, leftmost_self]
              rw [hres]
              refine ⟨hlm.symm, ⟨?_, hs.2⟩, rfl, rfl⟩
              intro c hc
              rcases List.mem_append.mp hc with h | h
              · exact hs.1 c h
              · have heq : c = PyClass.mk i (base :: rest) := by simpa using h
                subst heq
                exact hlm
            · rw [Bool.not_eq_true] at hb
              have hres : TagField._is_sender st (.mk i (base :: rest)) orig
                  = TagField._is_sender st base
                      (some (orig.getD (.mk i (base :: rest)))) := by
                conv_lhs => rw [TagField._is_sender]
                simp [hc1, hc2, hb]
              have hsz' : sizeOf base ≤ n := by
                simp at hsz
                omega
              have hlmeq : leftmostDescends st.cls (.mk i (base :: rest))
                  = leftmostDescends st.cls base := by
                simp [leftmost_mk, hbeqcls, leftmostList]
              have ho' : ∀ o, some (orig.getD (.mk i (base :: rest))) = some o →
                  leftmostDescends st.cls o = leftmostDescends st.cls base := by
                intro o hoeq
                injection hoeq with hoeq
                subst hoeq
                cases horig : orig with
                | none => simpa using hlmeq
                | some o0 => simpa using (ho o0 horig).trans hlmeq
              have hrec := ih base hsz' (some (orig.getD (.mk i (base :: rest)))) st hs ho'
              rw [hres, hlmeq]
              exact hrec

/-- C3 counterexample: with the declaring class `mk 0 []`, the sender
`mk 2 [mk 1 [], mk 0 []]` descends from it through its second base, yet
`_is_sender` (fresh caches) rejects it, because the `for` loop over
`__bases__` returns after examining only the first base.  So `_is_sender` is
not the any-base-path ancestry test the claim states. -/
theorem C3_counterexample :
    ¬ ((TagField._is_sender ⟨PyClass.mk 0 [], 7, [], []⟩
          (PyClass.mk 2 [PyClass.mk 1 [], PyClass.mk 0 []]) none).1 = true
        ↔ descends (PyClass.mk 0 [])
            (PyClass.mk 2 [PyClass.mk 1 [], PyClass.mk 0 []]) = true) := by
  decide

/-- C3 (amended): on sound memo state, `_is_sender` returns true iff the
sender is the declaring class or the declaring class lies on the sender's
chain of first base classes, and the updated memo tuples again agree with a
fresh computation of that leftmost-chain ancestry test. -/
theorem C3_is_sender_ancestry (st : FieldState) (sender : PyClass)
    (hs : cacheSound st) :
    (TagField._is_sender st sender none).1 = leftmostDescends st.cls sender ∧
    cacheSound (TagField._is_sender st sender none).2 ∧
    (TagField._is_sender st sender none).2.cls = st.cls := by
  have h := is_sender_spec (sizeOf sender) sender (Nat.le_refl _) none st hs
    (by intro o ho; cases ho)
  exact ⟨h.1, h.2.1, h.2.2.1⟩

/-- Witness for C3 on the diamond sender with fresh caches. -/
theorem C3_witness :
    (TagField._is_sender ⟨PyClass.mk 0 [], 7, [], []⟩
        (PyClass.mk 2 [PyClass.mk 1 [], PyClass.mk 0 []]) none).1
      = leftmostDescends (PyClass.mk 0 [])
          (PyClass.mk 2 [PyClass.mk 1 [], PyClass.mk 0 []]) ∧
    cacheSound (TagField._is_sender ⟨PyClass.mk 0 [], 7, [], []⟩
        (PyClass.mk 2 [PyClass.mk 1 [], PyClass.mk 0 []]) none).2 ∧
    (TagField._is_sender ⟨PyClass.mk 0 [], 7, [], []⟩
        (PyClass.mk 2 [PyClass.mk 1 [], PyClass.mk 0 []]) none).2.cls
      = PyClass.mk 0 [] :=
  C3_is_sender_ancestry ⟨PyClass.mk 0 [], 7, [], []⟩
    (PyClass.mk 2 [PyClass.mk 1 [], PyClass.mk 0 []])
    ⟨fun c hc => absurd hc (List.not_mem_nil c),
     fun c hc => absurd hc (List.not_mem_nil c)⟩

/-! ## C1: the post-save handler -/

/-- C1 counterexample: the model `mk 5 [mk 4 [], mk 3 []]` bears the tag
field declared by `mk 3 []` (it descends from it through its second base),
its instance has primary key 9 and cached string "a", yet after the
post-save handler runs the persisted association set is still empty and
differs from the parsed cache, because `_is_sender` misses the sender. -/
theorem C1_counterexample :
    descends (PyClass.mk 3 []) (PyClass.mk 5 [PyClass.mk 4 [], PyClass.mk 3 []]) = true ∧
    get_for_object
        (TagField._save ⟨PyClass.mk 3 [], 2, [], []⟩
          (PyClass.mk 5 [PyClass.mk 4 [], PyClass.mk 3 []])
          ⟨some 9, some (some "a")⟩ []).1 2 9
      ≠ parse_tag_input
          (TagField._get_instance_tag_cache ⟨some 9, some (some "a")⟩) := by
  refine ⟨by decide, by decide⟩

/-- C1 (amended): for every instance of a model that is the declaring class
or has the declaring class on its chain of first base classes, after a save
of that instance the persisted association set exactly equals the set of tag
names parsed from the instance's cached tag string: the post-save handler
calls the tag-storage update with the instance's cached string and the
declaring model's content type. -/
theorem C1_save_updates_associations (st : FieldState) (sender : PyClass)
    (inst : Instance) (store : TagStore) (oid : Nat)
    (hs : cacheSound st) (hpk : inst.pk = some oid)
    (hsend : leftmostDescends st.cls sender = true) :
    get_for_object (TagField._save st sender inst store).1 st.ctype oid
      = parse_tag_input (TagField._get_instance_tag_cache inst) := by
  have h := is_sender_spec (sizeOf sender) sender (Nat.le_refl _) none st hs
    (by intro o ho; cases ho)
  rcases hr : TagField._is_sender st sender none with ⟨b, st'⟩
  rw [hr] at h
  have hb : b = true := h.1.trans hsend
  subst hb
  unfold TagField._save
  rw [hr]
  exact get_for_object_update_tags store inst _ st.ctype oid hpk

/-- Witness for C1: the declaring model itself, one persisted instance with
cached string "a b", starting from a store holding a stale association. -/
theorem C1_witness :
    get_for_object
        (TagField._save ⟨PyClass.mk 3 [], 2, [], []⟩ (PyClass.mk 3 [])
          ⟨some 9, some (some "a b")⟩ [⟨2, 9, "old"⟩]).1 2 9
      = parse_tag_input
          (TagField._get_instance_tag_cache ⟨some 9, some (some "a b")⟩) :=
  C1_save_updates_associations ⟨PyClass.mk 3 [], 2, [], []⟩ (PyClass.mk 3 [])
    ⟨some 9, some (some "a b")⟩ [⟨2, 9, "old"⟩] 9
    ⟨fun c hc => absurd hc (List.not_mem_nil c),
     fun c hc => absurd hc (List.not_mem_nil c)⟩
    rfl (by decide)

/-! ## C5, C8: the listing view's failure modes -/

/-- C5: calling `tagged_object_list` with a tag name that resolves to no
existing tag raises the not-found condition (404) and performs no object
listing, while for a tag name that does resolve no not-found condition is
raised: the view returns a rendered listing. -/
theorem C5_unknown_tag_404 (store : TagStore) (tags : List TagName) (qm : Nat)
    (t : TagName) (rel : Bool) (kwargs : Kwargs) :
    (get_tag tags t = none →
      tagged_object_list store tags (some qm) (some t) rel kwargs
        = .error (.http404 ("No Tag found matching " ++ t ++ "."))) ∧
    (∀ ti, get_tag tags t = some ti →
      tagged_object_list store tags (some qm) (some t) rel kwargs
        = .ok { tag := ti
                objects := get_by_model store qm ti
                related_tags := if rel
                  then some (related_for_model store qm ti) else none }) := by
  constructor
  · intro h
    simp [tagged_object_list, h]
  · intro ti h
    simp [tagged_object_list, h]

/-- Witness for C5: tag "b" is unknown and yields the 404, tag "a" resolves
and yields the listing. -/
theorem C5_witness :
    (tagged_object_list [⟨0, 1, "a"⟩] ["a"] (some 0) (some "b") false {}
        = .error (.http404 "No Tag found matching b.")) ∧
    (tagged_object_list [⟨0, 1, "a"⟩] ["a"] (some 0) (some "a") false {}
        = .ok { tag := "a", objects := [1], related_tags := none }) := by
  constructor
  · exact (C5_unknown_tag_404 [⟨0, 1, "a"⟩] ["a"] 0 "b" false {}).1 (by decide)
  · exact (C5_unknown_tag_404 [⟨0, 1, "a"⟩] ["a"] 0 "a" false {}).2 "a" (by decide)

/-- C8: calling `tagged_object_list` without a queryset-or-model argument,
or without a tag argument, neither positionally nor in the keyword
arguments, raises an attribute error; the error does not depend on the tag
store or the stored tags, so it is surfaced before any tag resolution or
listing happens. -/
theorem C8_missing_arguments (store : TagStore) (tags : List TagName)
    (t : Option TagName) (q kwq : Nat) (rel : Bool) :
    tagged_object_list store tags none t rel { queryset_or_model := none, tag := t }
      = .error (.attributeError
          "tagged_object_list must be called with a queryset or a model.") ∧
    tagged_object_list store tags (some q) none rel
        { queryset_or_model := some kwq, tag := none }
      = .error (.attributeError "tagged_object_list must be called with a tag.") := by
  constructor
  · simp [tagged_object_list]
  · simp [tagged_object_list]

/-! ## C9: the per-tag usage summary -/

/-- Inserting into a list is a permutation of consing. -/
theorem insertSorted_perm (le : α → α → Bool) (a : α) (l : List α) :
    (insertSorted le a l).Perm (a :: l) := by
  induction l with
  | nil => exact List.Perm.refl _
  | cons b bs ih =>
    simp only [insertSorted]
    split
    · exact List.Perm.refl _
    · exact (ih.cons b).trans (List.Perm.swap a b bs)

/-- `sortBy` permutes its input. -/
theorem sortBy_perm (le : α → α → Bool) (l : List α) : (sortBy le l).Perm l := by
  induction l with
  | nil => exact List.Perm.refl _
  | cons a as ih => exact (insertSorted_perm le a (sortBy le as)).trans (ih.cons a)

/-- The entries `tags_for_object` produces, up to the ordering. -/
theorem mem_tags_for_object (store : TagStore) (ctype : Nat)
    (order_by : List Nat → List Nat) (info : TagInfo) :
    info ∈ tags_for_object store ctype order_by ↔
      ∃ t ∈ ((store.filter (fun it => it.ctype == ctype)).map (·.tag)).dedup,
        info = { tag := t
                 count := (store.filter
                    (fun it => it.ctype == ctype && it.tag == t)).length
                 items := (order_by (get_by_model store ctype t)).take 5 } := by
  unfold tags_for_object
  constructor
  · intro h
    rcases List.mem_map.mp h with ⟨p, hp, rfl⟩
    have hp' := ((sortBy_perm _ _).mem_iff).mp hp
    rcases List.mem_map.mp hp' with ⟨t, ht, rfl⟩
    exact ⟨t, ht, rfl⟩
  · rintro ⟨t, ht, rfl⟩
    apply List.mem_map.mpr
    refine ⟨(t, (store.filter (fun it => it.ctype == ctype && it.tag == t)).length),
      ?_, rfl⟩
    apply ((sortBy_perm _ _).mem_iff).mpr
    exact List.mem_map.mpr ⟨t, ht, rfl⟩

/-- C9: provided the store respects the association table's uniqueness
constraint (no duplicate triples) and the caller-supplied ordering is a
reordering, `tags_for_object` builds an entry exactly for each tag used on
at least one instance of the model; each entry's count equals the number of
distinct tagged instances of the model holding that tag, and its items list
is a sample of at most 5 instances tagged with it. -/
theorem C9_tags_for_object_spec (store : TagStore) (ctype : Nat)
    (order_by : List Nat → List Nat)
    (hnd : store.Nodup)
    (hord : ∀ l : List Nat, (order_by l).Perm l) :
    (∀ t : TagName,
        (∃ info ∈ tags_for_object store ctype order_by, info.tag = t) ↔
          ∃ it ∈ store, it.ctype = ctype ∧ it.tag = t) ∧
    (∀ info ∈ tags_for_object store ctype order_by,
        info.count
          = ((store.filter (fun it => it.ctype == ctype && it.tag == info.tag)).map
              (·.objectId)).dedup.length ∧
        info.items.length ≤ 5 ∧
        ∀ o ∈ info.items, (⟨ctype, o, info.tag⟩ : TaggedItem) ∈ store) := by
  constructor
  · intro t
    constructor
    · rintro ⟨info, hinfo, rfl⟩
      rcases (mem_tags_for_object store ctype order_by info).mp hinfo with ⟨t0, ht0, rfl⟩
      rcases List.mem_map.mp (List.mem_dedup.mp ht0) with ⟨it, hit, htag⟩
      have hitf := List.mem_filter.mp hit
      refine ⟨it, hitf.1, ?_, htag⟩
      simpa using hitf.2
    · rintro ⟨it, hit, hct, htag⟩
      have htmem : t ∈ ((store.filter (fun it => it.ctype == ctype)).map (·.tag)).dedup := by
        rw [List.mem_dedup]
        exact List.mem_map.mpr ⟨it, List.mem_filter.mpr ⟨hit, by simp [hct]⟩, htag⟩
      exact ⟨_, (mem_tags_for_object store ctype order_by _).mpr ⟨t, htmem, rfl⟩, rfl⟩
  · intro info hinfo
    rcases (mem_tags_for_object store ctype order_by info).mp hinfo with ⟨t, _, rfl⟩
    refine ⟨?_, List.length_take_le _ _, ?_⟩
    · show (store.filter (fun it => it.ctype == ctype && it.tag == t)).length = _
      have hfil := hnd.filter (fun it => it.ctype == ctype && it.tag == t)
      have hmapnd : ((store.filter (fun it => it.ctype == ctype && it.tag == t)).map
          (·.objectId)).Nodup := by
        apply (List.nodup_map_iff_inj_on hfil).mpr
        intro x hx y hy hxy
        have hx' := List.mem_filter.mp hx
        have hy' := List.mem_filter.mp hy
        have hx2 := hx'.2
        have hy2 := hy'.2
        simp at hx2 hy2
        cases x
        cases y
        simp_all
      rw [List.Nodup.dedup hmapnd, List.length_map]
    · intro o ho
      have ho1 := List.mem_of_mem_take ho
      have ho2 := (hord (get_by_model store ctype t)).mem_iff.mp ho1
      rcases List.mem_map.mp ho2 with ⟨it, hit, rfl⟩
      have hitf := List.mem_filter.mp hit
      have h2 := hitf.2
      simp at h2
      have heq : (⟨ctype, it.objectId, t⟩ : TaggedItem) = it := by
        cases it
        simp_all
      show (⟨ctype, it.objectId, t⟩ : TaggedItem) ∈ store
      rw [heq]
      exact hitf.1

/-- Witness for C9 on a concrete store: tag "a" on two objects of model 0,
tag "b" on one object of model 1, identity ordering. -/
theorem C9_witness :
    (∀ t : TagName,
        (∃ info ∈ tags_for_object [⟨0, 1, "a"⟩, ⟨0, 2, "a"⟩, ⟨1, 5, "b"⟩] 0 (fun l => l),
            info.tag = t) ↔
          ∃ it ∈ ([⟨0, 1, "a"⟩, ⟨0, 2, "a"⟩, ⟨1, 5, "b"⟩] : TagStore),
            it.ctype = 0 ∧ it.tag = t) ∧
    (∀ info ∈ tags_for_object [⟨0, 1, "a"⟩, ⟨0, 2, "a"⟩, ⟨1, 5, "b"⟩] 0 (fun l => l),
        info.count
          = ((([⟨0, 1, "a"⟩, ⟨0, 2, "a"⟩, ⟨1, 5, "b"⟩] : TagStore).filter
              (fun it => it.ctype == 0 && it.tag == info.tag)).map
              (·.objectId)).dedup.length ∧
        info.items.length ≤ 5 ∧
        ∀ o ∈ info.items,
          (⟨0, o, info.tag⟩ : TaggedItem) ∈ ([⟨0, 1, "a"⟩, ⟨0, 2, "a"⟩, ⟨1, 5, "b"⟩] : TagStore)) :=
  C9_tags_for_object_spec [⟨0, 1, "a"⟩, ⟨0, 2, "a"⟩, ⟨1, 5, "b"⟩] 0 (fun l => l)
    (by decide) (fun l => List.Perm.refl l)

end Tagging
